import Mathlib

/-!
Shallow embedding of the blockchain-v2 repository's Proof-of-History
sequencer (src/entry/src/poh.rs) and ledger store (src/ledger/src/
blockstore.rs, src/ledger/src/blockstore_db.rs), with theorems settling
the specification claims about them.

Machine integers (u64) are embedded as `Nat`; the operations proved about
are exercised only on states where no u64 overflow or underflow can occur
(the sequencer's own invariant, proved below, guarantees this), so `Nat`
arithmetic coincides with the Rust semantics on those states.  The SHA-256
primitives `hash` and `hashv` live in an external crate
(solana_sha256_hasher); they are embedded as explicit function parameters
`h1 : Hash -> Hash` (re-hash) and `hv : Hash -> Hash -> Hash` (hash with
mixin), since no claim depends on their concrete values.
-/

/-- Hash values (solana_hash::Hash, opaque 32-byte values) are embedded as
natural numbers; the claims never inspect their structure. -/
abbrev Hash := Nat

/-- `const LOW_POWER_MODE: u64 = u64::MAX;` from src/entry/src/poh.rs. -/
def LOW_POWER_MODE : Nat := 2 ^ 64 - 1

/-- The `Poh` sequencer state from src/entry/src/poh.rs.  The
`slot_start_time: Instant` field is omitted: it is wall-clock
instrumentation never read by `hash`/`record`/`tick`. -/
structure Poh where
  hash : Hash
  num_hashes : Nat
  hashes_per_tick : Nat
  remaining_hashes : Nat
  tick_number : Nat
deriving Repr, DecidableEq

/-- `PohEntry { num_hashes, hash }` from src/entry/src/poh.rs. -/
structure PohEntry where
  num_hashes : Nat
  hash : Hash
deriving Repr, DecidableEq

/-- `Poh::new_with_slot_info`.  The Rust `assert!(hashes_per_tick > 1)`
panic is embedded as `none`. -/
def Poh.new_with_slot_info (h : Hash) (hashes_per_tick : Option Nat)
    (tick_number : Nat) : Option Poh :=
  let hpt := hashes_per_tick.getD LOW_POWER_MODE
  if 1 < hpt then
    some { hash := h, num_hashes := 0, hashes_per_tick := hpt,
           remaining_hashes := hpt, tick_number := tick_number }
  else none

/-- `Poh::new`, delegating to `new_with_slot_info` with tick number 0. -/
def Poh.new (h : Hash) (hashes_per_tick : Option Nat) : Option Poh :=
  Poh.new_with_slot_info h hashes_per_tick 0

/-- `n` successive applications of the re-hash primitive, embedding the
`for _ in 0..num_hashes { self.hash = hash(self.hash.as_ref()); }` loop. -/
def hashTimes (h1 : Hash → Hash) : Nat → Hash → Hash
  | 0, v => v
  | n + 1, v => hashTimes h1 n (h1 v)

/-- `Poh::hash(&mut self, max_num_hashes)` (the method; the struct field of
the same name is the projection `Poh.hash`).  Returns the updated state and
the `remaining_hashes == 1` flag returned to the caller. -/
def Poh.hashStep (h1 : Hash → Hash) (s : Poh) (max_num_hashes : Nat) :
    Poh × Bool :=
  let num_hashes := min (s.remaining_hashes - 1) max_num_hashes
  let s' := { s with
    hash := hashTimes h1 num_hashes s.hash,
    num_hashes := s.num_hashes + num_hashes,
    remaining_hashes := s.remaining_hashes - num_hashes }
  (s', s'.remaining_hashes == 1)

/-- `Poh::record(&mut self, mixin)`. -/
def Poh.record (hv : Hash → Hash → Hash) (s : Poh) (mixin : Hash) :
    Poh × Option PohEntry :=
  if s.remaining_hashes = 1 then
    (s, none)
  else
    let newHash := hv s.hash mixin
    let emitted := s.num_hashes + 1
    ({ s with hash := newHash, num_hashes := 0,
              remaining_hashes := s.remaining_hashes - 1 },
     some { num_hashes := emitted, hash := newHash })

/-- `Poh::tick(&mut self)`. -/
def Poh.tick (h1 : Hash → Hash) (s : Poh) : Poh × Option PohEntry :=
  let newHash := h1 s.hash
  let bumped := s.num_hashes + 1
  let remaining := s.remaining_hashes - 1
  if s.hashes_per_tick ≠ LOW_POWER_MODE ∧ remaining ≠ 0 then
    ({ s with hash := newHash, num_hashes := bumped,
              remaining_hashes := remaining }, none)
  else
    ({ s with hash := newHash, num_hashes := 0,
              remaining_hashes := s.hashes_per_tick,
              tick_number := s.tick_number + 1 },
     some { num_hashes := bumped, hash := newHash })

/-- One call of the sequencer's public mutating API. -/
inductive PohOp where
  | hashOp (max_num_hashes : Nat)
  | recordOp (mixin : Hash)
  | tickOp
deriving Repr, DecidableEq

/-- Apply one API call, returning the new state and the emitted entry, if
any (the `hash` method emits none; its Bool return value is dropped). -/
def Poh.step (h1 : Hash → Hash) (hv : Hash → Hash → Hash) (s : Poh) :
    PohOp → Poh × Option PohEntry
  | .hashOp k => ((s.hashStep h1 k).1, none)
  | .recordOp m => s.record hv m
  | .tickOp => s.tick h1

/-- Run a sequence of API calls, collecting every emitted entry in order. -/
def Poh.run (h1 : Hash → Hash) (hv : Hash → Hash → Hash) (s : Poh) :
    List PohOp → Poh × List PohEntry
  | [] => (s, [])
  | op :: ops =>
    let r := s.step h1 hv op
    let rest := Poh.run h1 hv r.1 ops
    (rest.1, r.2.toList ++ rest.2)

/-- `true` when no `tick()` call in the run emits an entry (records may
still emit). -/
def Poh.ticksQuiet (h1 : Hash → Hash) (hv : Hash → Hash → Hash) (s : Poh) :
    List PohOp → Bool
  | [] => true
  | op :: ops =>
    let r := s.step h1 hv op
    (match op with
     | .tickOp => r.2.isNone
     | _ => true) && Poh.ticksQuiet h1 hv r.1 ops

/-- Total `num_hashes` over a list of emitted entries. -/
def entriesSum (es : List PohEntry) : Nat :=
  (es.map PohEntry.num_hashes).sum

example : Poh.new 0 (some 3) =
    some { hash := 0, num_hashes := 0, hashes_per_tick := 3,
           remaining_hashes := 3, tick_number := 0 } := by decide

example : Poh.new 0 (some 1) = none := by decide

example :
    (Poh.run Nat.succ Nat.add
      { hash := 0, num_hashes := 0, hashes_per_tick := 3,
        remaining_hashes := 3, tick_number := 0 }
      [.tickOp, .tickOp, .tickOp]).2 =
    [{ num_hashes := 3, hash := 3 }] := by decide

/-- The sequencer's structural invariant: `hashes_per_tick > 1` (asserted by
the constructor and never modified) and `remaining_hashes >= 1`. -/
def PohInv (s : Poh) : Prop :=
  1 < s.hashes_per_tick ∧ 1 ≤ s.remaining_hashes

instance (s : Poh) : Decidable (PohInv s) := by
  unfold PohInv
  infer_instance

/-- C10: the Poh state satisfies `remaining_hashes >= 1` after construction
and after every `hash()`, `record()` and `tick()` call: the constructor
(when its `hashes_per_tick > 1` assertion passes) establishes `PohInv`, and
each of the three mutating calls preserves it. -/
theorem c10_poh_invariant :
    (∀ (h : Hash) (hpt : Option Nat) (tn : Nat) (p : Poh),
        Poh.new_with_slot_info h hpt tn = some p → PohInv p) ∧
    (∀ (h1 : Hash → Hash) (s : Poh) (k : Nat),
        PohInv s → PohInv (s.hashStep h1 k).1) ∧
    (∀ (hv : Hash → Hash → Hash) (s : Poh) (m : Hash),
        PohInv s → PohInv (s.record hv m).1) ∧
    (∀ (h1 : Hash → Hash) (s : Poh),
        PohInv s → PohInv (s.tick h1).1) := by
  refine ⟨?_, ?_, ?_, ?_⟩
  · intro h hpt tn p hnew
    unfold Poh.new_with_slot_info at hnew
    by_cases hgt : 1 < hpt.getD LOW_POWER_MODE
    · rw [if_pos hgt] at hnew
      cases hnew
      exact ⟨hgt, Nat.le_of_lt hgt⟩
    · rw [if_neg hgt] at hnew
      cases hnew
  · intro h1 s k hs
    obtain ⟨hpt, hr⟩ := hs
    have hmin : min (s.remaining_hashes - 1) k ≤ s.remaining_hashes - 1 :=
      Nat.min_le_left _ _
    constructor
    · simpa [Poh.hashStep] using hpt
    · simp only [Poh.hashStep]
      omega
  · intro hv s m hs
    obtain ⟨hpt, hr⟩ := hs
    unfold Poh.record
    by_cases h1 : s.remaining_hashes = 1
    · rw [if_pos h1]
      exact ⟨hpt, hr⟩
    · rw [if_neg h1]
      refine ⟨hpt, ?_⟩
      show 1 ≤ s.remaining_hashes - 1
      omega
  · intro h1 s hs
    obtain ⟨hpt, hr⟩ := hs
    unfold Poh.tick
    by_cases hcond : s.hashes_per_tick ≠ LOW_POWER_MODE ∧ s.remaining_hashes - 1 ≠ 0
    · rw [if_pos hcond]
      obtain ⟨-, hB⟩ := hcond
      refine ⟨hpt, ?_⟩
      show 1 ≤ s.remaining_hashes - 1
      omega
    · rw [if_neg hcond]
      refine ⟨hpt, ?_⟩
      show 1 ≤ s.hashes_per_tick
      omega

/-- Witness for C10: the invariant holds concretely after construction and
after one call of each kind. -/
theorem c10_poh_invariant_witness :
    PohInv { hash := 0, num_hashes := 0, hashes_per_tick := 3,
             remaining_hashes := 3, tick_number := 0 } ∧
    PohInv (Poh.hashStep Nat.succ
      { hash := 0, num_hashes := 0, hashes_per_tick := 3,
        remaining_hashes := 3, tick_number := 0 } 10).1 ∧
    PohInv (Poh.record Nat.add
      { hash := 0, num_hashes := 0, hashes_per_tick := 3,
        remaining_hashes := 3, tick_number := 0 } 7).1 ∧
    PohInv (Poh.tick Nat.succ
      { hash := 0, num_hashes := 0, hashes_per_tick := 3,
        remaining_hashes := 3, tick_number := 0 }).1 :=
  ⟨c10_poh_invariant.1 0 (some 3) 0 _ rfl,
   c10_poh_invariant.2.1 Nat.succ _ 10 (by decide),
   c10_poh_invariant.2.2.1 Nat.add _ 7 (by decide),
   c10_poh_invariant.2.2.2 Nat.succ _ (by decide)⟩

/-- C2: `record(mixin)` returns `None` iff `remaining_hashes == 1` at call
time; otherwise it returns an entry whose `num_hashes` is the internal
iteration counter (hash iterations since the last record/tick) plus 1 and
whose hash mixes the mixin into the chain, resets the internal counter to
0, and decrements `remaining_hashes` by exactly 1.  The hypothesis
`1 <= remaining_hashes` is the constructor-established invariant
(`c10_poh_invariant`-style), under which the `Nat` embedding agrees with
the u64 code. -/
theorem c2_record_semantics (hv : Hash → Hash → Hash) (s : Poh)
    (mixin : Hash) (hr : 1 ≤ s.remaining_hashes) :
    ((s.record hv mixin).2 = none ↔ s.remaining_hashes = 1) ∧
    (s.remaining_hashes ≠ 1 →
      (s.record hv mixin).2 =
          some { num_hashes := s.num_hashes + 1, hash := hv s.hash mixin } ∧
      (s.record hv mixin).1.num_hashes = 0 ∧
      (s.record hv mixin).1.remaining_hashes + 1 = s.remaining_hashes) := by
  unfold Poh.record
  by_cases h1 : s.remaining_hashes = 1
  · rw [if_pos h1]
    simp [h1]
  · rw [if_neg h1]
    refine ⟨by simp [h1], fun _ => ⟨rfl, rfl, ?_⟩⟩
    show s.remaining_hashes - 1 + 1 = s.remaining_hashes
    omega

/-- Witness for C2 at a concrete state with `remaining_hashes = 3`. -/
theorem c2_record_semantics_witness :
    ((Poh.record Nat.add
        { hash := 5, num_hashes := 1, hashes_per_tick := 4,
          remaining_hashes := 3, tick_number := 0 } 7).2 = none ↔
      (3 : Nat) = 1) ∧
    ((3 : Nat) ≠ 1 →
      (Poh.record Nat.add
          { hash := 5, num_hashes := 1, hashes_per_tick := 4,
            remaining_hashes := 3, tick_number := 0 } 7).2 =
          some { num_hashes := 1 + 1, hash := Nat.add 5 7 } ∧
      (Poh.record Nat.add
          { hash := 5, num_hashes := 1, hashes_per_tick := 4,
            remaining_hashes := 3, tick_number := 0 } 7).1.num_hashes = 0 ∧
      (Poh.record Nat.add
          { hash := 5, num_hashes := 1, hashes_per_tick := 4,
            remaining_hashes := 3, tick_number := 0 } 7).1.remaining_hashes
          + 1 = 3) :=
  c2_record_semantics Nat.add
    { hash := 5, num_hashes := 1, hashes_per_tick := 4,
      remaining_hashes := 3, tick_number := 0 } 7 (by decide)

/-- C3: `tick()` always re-hashes the chain once; in low-power mode
(`hashes_per_tick` equal to the sentinel, i.e. unset at construction) every
call emits an entry and resets `remaining_hashes` to the sentinel; in
calibrated mode it emits exactly when the decrement brings
`remaining_hashes` to 0 (i.e. it was 1 at call time), then resets
`remaining_hashes` to `hashes_per_tick`, resets `num_hashes` to 0 and
increments `tick_number`; a non-emitting tick just increments `num_hashes`
and decrements `remaining_hashes`. -/
theorem c3_tick_semantics (h1 : Hash → Hash) (s : Poh)
    (hr : 1 ≤ s.remaining_hashes) :
    (s.tick h1).1.hash = h1 s.hash ∧
    (s.hashes_per_tick = LOW_POWER_MODE →
      (s.tick h1).2 =
          some { num_hashes := s.num_hashes + 1, hash := h1 s.hash } ∧
      (s.tick h1).1.remaining_hashes = LOW_POWER_MODE ∧
      (s.tick h1).1.num_hashes = 0 ∧
      (s.tick h1).1.tick_number = s.tick_number + 1) ∧
    (s.hashes_per_tick ≠ LOW_POWER_MODE →
      (((s.tick h1).2).isSome = true ↔ s.remaining_hashes = 1) ∧
      (s.remaining_hashes = 1 →
        (s.tick h1).2 =
            some { num_hashes := s.num_hashes + 1, hash := h1 s.hash } ∧
        (s.tick h1).1.remaining_hashes = s.hashes_per_tick ∧
        (s.tick h1).1.num_hashes = 0 ∧
        (s.tick h1).1.tick_number = s.tick_number + 1) ∧
      (s.remaining_hashes ≠ 1 →
        (s.tick h1).2 = none ∧
        (s.tick h1).1.num_hashes = s.num_hashes + 1 ∧
        (s.tick h1).1.remaining_hashes + 1 = s.remaining_hashes ∧
        (s.tick h1).1.tick_number = s.tick_number)) := by
  unfold Poh.tick
  by_cases hlp : s.hashes_per_tick = LOW_POWER_MODE
  · have hcond : ¬ (s.hashes_per_tick ≠ LOW_POWER_MODE ∧
        s.remaining_hashes - 1 ≠ 0) := by
      intro hc
      exact hc.1 hlp
    rw [if_neg hcond]
    refine ⟨rfl, fun _ => ⟨rfl, hlp ▸ rfl, rfl, rfl⟩, fun hcal => absurd hlp hcal⟩
  · by_cases hone : s.remaining_hashes = 1
    · have hcond : ¬ (s.hashes_per_tick ≠ LOW_POWER_MODE ∧
          s.remaining_hashes - 1 ≠ 0) := by
        intro hc
        exact hc.2 (by omega)
      rw [if_neg hcond]
      exact ⟨rfl, fun hlp2 => absurd hlp2 hlp,
        fun _ => ⟨by simp [hone], fun _ => ⟨rfl, rfl, rfl, rfl⟩,
          fun hne => absurd hone hne⟩⟩
    · have hcond : s.hashes_per_tick ≠ LOW_POWER_MODE ∧
          s.remaining_hashes - 1 ≠ 0 := ⟨hlp, by omega⟩
      rw [if_pos hcond]
      refine ⟨rfl, fun hlp2 => absurd hlp2 hlp,
        fun _ => ⟨by simp [hone], fun heq => absurd heq hone,
          fun _ => ⟨rfl, rfl, ?_, rfl⟩⟩⟩
      show s.remaining_hashes - 1 + 1 = s.remaining_hashes
      omega

/-- Witness for C3, exercising a calibrated state with
`remaining_hashes = 2` (non-emitting tick). -/
theorem c3_tick_semantics_witness :
    ((Poh.tick Nat.succ
        { hash := 4, num_hashes := 1, hashes_per_tick := 3,
          remaining_hashes := 2, tick_number := 5 }).1.hash =
      Nat.succ 4) ∧
    ((3 : Nat) = LOW_POWER_MODE →
      (Poh.tick Nat.succ
          { hash := 4, num_hashes := 1, hashes_per_tick := 3,
            remaining_hashes := 2, tick_number := 5 }).2 =
          some { num_hashes := 1 + 1, hash := Nat.succ 4 } ∧
      (Poh.tick Nat.succ
          { hash := 4, num_hashes := 1, hashes_per_tick := 3,
            remaining_hashes := 2, tick_number := 5 }).1.remaining_hashes =
          LOW_POWER_MODE ∧
      (Poh.tick Nat.succ
          { hash := 4, num_hashes := 1, hashes_per_tick := 3,
            remaining_hashes := 2, tick_number := 5 }).1.num_hashes = 0 ∧
      (Poh.tick Nat.succ
          { hash := 4, num_hashes := 1, hashes_per_tick := 3,
            remaining_hashes := 2, tick_number := 5 }).1.tick_number =
          5 + 1) ∧
    ((3 : Nat) ≠ LOW_POWER_MODE →
      (((Poh.tick Nat.succ
          { hash := 4, num_hashes := 1, hashes_per_tick := 3,
            remaining_hashes := 2, tick_number := 5 }).2).isSome = true ↔
        (2 : Nat) = 1) ∧
      ((2 : Nat) = 1 →
        (Poh.tick Nat.succ
            { hash := 4, num_hashes := 1, hashes_per_tick := 3,
              remaining_hashes := 2, tick_number := 5 }).2 =
            some { num_hashes := 1 + 1, hash := Nat.succ 4 } ∧
        (Poh.tick Nat.succ
            { hash := 4, num_hashes := 1, hashes_per_tick := 3,
              remaining_hashes := 2, tick_number := 5 }).1.remaining_hashes
            = 3 ∧
        (Poh.tick Nat.succ
            { hash := 4, num_hashes := 1, hashes_per_tick := 3,
              remaining_hashes := 2, tick_number := 5 }).1.num_hashes = 0 ∧
        (Poh.tick Nat.succ
            { hash := 4, num_hashes := 1, hashes_per_tick := 3,
              remaining_hashes := 2, tick_number := 5 }).1.tick_number =
            5 + 1) ∧
      ((2 : Nat) ≠ 1 →
        (Poh.tick Nat.succ
            { hash := 4, num_hashes := 1, hashes_per_tick := 3,
              remaining_hashes := 2, tick_number := 5 }).2 = none ∧
        (Poh.tick Nat.succ
            { hash := 4, num_hashes := 1, hashes_per_tick := 3,
              remaining_hashes := 2, tick_number := 5 }).1.num_hashes =
            1 + 1 ∧
        (Poh.tick Nat.succ
            { hash := 4, num_hashes := 1, hashes_per_tick := 3,
              remaining_hashes := 2, tick_number := 5 }).1.remaining_hashes
            + 1 = 2 ∧
        (Poh.tick Nat.succ
            { hash := 4, num_hashes := 1, hashes_per_tick := 3,
              remaining_hashes := 2, tick_number := 5 }).1.tick_number =
            5)) :=
  c3_tick_semantics Nat.succ
    { hash := 4, num_hashes := 1, hashes_per_tick := 3,
      remaining_hashes := 2, tick_number := 5 } (by decide)


/-- Budget accounting for one API call in calibrated mode: as long as the
call is not an entry-emitting `tick()`, the total of already-emitted entry
`num_hashes`, the internal counter and the remaining budget is conserved,
`hashes_per_tick` is unchanged, and `remaining_hashes` stays positive. -/
theorem step_budget (h1 : Hash → Hash) (hv : Hash → Hash → Hash) (s : Poh)
    (op : PohOp)
    (hc : s.hashes_per_tick ≠ LOW_POWER_MODE)
    (hr : 1 ≤ s.remaining_hashes)
    (hq : op = PohOp.tickOp → (s.step h1 hv op).2.isNone = true) :
    (s.step h1 hv op).1.hashes_per_tick = s.hashes_per_tick ∧
    1 ≤ (s.step h1 hv op).1.remaining_hashes ∧
    entriesSum (s.step h1 hv op).2.toList + (s.step h1 hv op).1.num_hashes +
      (s.step h1 hv op).1.remaining_hashes =
      s.num_hashes + s.remaining_hashes := by
  cases op with
  | hashOp k =>
    simp only [Poh.step, Poh.hashStep, Option.toList, entriesSum, List.map,
      List.sum_nil]
    refine ⟨?_, ?_, ?_⟩ <;> first | trivial | omega
  | recordOp m =>
    simp only [Poh.step]
    unfold Poh.record
    by_cases h1r : s.remaining_hashes = 1
    · rw [if_pos h1r]
      simp only [Option.toList, entriesSum, List.map, List.sum_nil]
      refine ⟨?_, ?_, ?_⟩ <;> first | trivial | omega
    · rw [if_neg h1r]
      simp only [Option.toList, entriesSum, List.map, List.sum_cons,
        List.sum_nil]
      refine ⟨?_, ?_, ?_⟩ <;> first | trivial | omega
  | tickOp =>
    have hrem : s.remaining_hashes - 1 ≠ 0 := by
      intro h0
      have hnone := hq rfl
      simp only [Poh.step] at hnone
      unfold Poh.tick at hnone
      rw [if_neg (by
        intro hcc
        exact hcc.2 h0)] at hnone
      simp at hnone
    simp only [Poh.step]
    unfold Poh.tick
    rw [if_pos ⟨hc, hrem⟩]
    simp only [Option.toList, entriesSum, List.map, List.sum_nil]
    refine ⟨?_, ?_, ?_⟩ <;> first | trivial | omega

/-- `entriesSum` distributes over append. -/
theorem entriesSum_append (a b : List PohEntry) :
    entriesSum (a ++ b) = entriesSum a + entriesSum b := by
  simp [entriesSum]

/-- Budget conservation over a whole run without entry-emitting ticks, in
calibrated mode. -/
theorem run_budget (h1 : Hash → Hash) (hv : Hash → Hash → Hash)
    (ops : List PohOp) (s : Poh)
    (hc : s.hashes_per_tick ≠ LOW_POWER_MODE)
    (hr : 1 ≤ s.remaining_hashes)
    (hq : Poh.ticksQuiet h1 hv s ops = true) :
    (Poh.run h1 hv s ops).1.hashes_per_tick = s.hashes_per_tick ∧
    1 ≤ (Poh.run h1 hv s ops).1.remaining_hashes ∧
    entriesSum (Poh.run h1 hv s ops).2 +
      (Poh.run h1 hv s ops).1.num_hashes +
      (Poh.run h1 hv s ops).1.remaining_hashes =
      s.num_hashes + s.remaining_hashes := by
  induction ops generalizing s with
  | nil =>
    simp [Poh.run, entriesSum, hr]
  | cons op ops ih =>
    simp only [Poh.ticksQuiet, Bool.and_eq_true] at hq
    obtain ⟨hq1, hq2⟩ := hq
    have hqt : op = PohOp.tickOp → (s.step h1 hv op).2.isNone = true := by
      intro he
      subst he
      simpa using hq1
    obtain ⟨e1, e2, e3⟩ := step_budget h1 hv s op hc hr hqt
    have hc' : (s.step h1 hv op).1.hashes_per_tick ≠ LOW_POWER_MODE := by
      rw [e1]
      exact hc
    obtain ⟨i1, i2, i3⟩ := ih (s.step h1 hv op).1 hc' e2 hq2
    simp only [Poh.run]
    refine ⟨by rw [i1, e1], i2, ?_⟩
    rw [entriesSum_append]
    omega

/-- C1: starting from a freshly constructed or freshly post-tick calibrated
state (`hashes_per_tick = N > 1`, `N` not the low-power sentinel,
`num_hashes = 0`, `remaining_hashes = N`), run any sequence of
`hash`/`record`/`tick` calls none of whose ticks emits, and let the next
`tick()` emit entry `e`: then the `num_hashes` of all entries emitted since
the previous emitting tick, `e` included, sum to exactly `N`. -/
theorem c1_calibrated_tick_budget (h1 : Hash → Hash)
    (hv : Hash → Hash → Hash) (N : Nat) (s s2 : Poh) (ops : List PohOp)
    (e : PohEntry)
    (hN : 1 < N) (hcal : N ≠ LOW_POWER_MODE)
    (hhpt : s.hashes_per_tick = N) (hnum : s.num_hashes = 0)
    (hrem : s.remaining_hashes = N)
    (hq : Poh.ticksQuiet h1 hv s ops = true)
    (htick : ((Poh.run h1 hv s ops).1).tick h1 = (s2, some e)) :
    entriesSum (Poh.run h1 hv s ops).2 + e.num_hashes = N := by
  have hc : s.hashes_per_tick ≠ LOW_POWER_MODE := by
    rw [hhpt]
    exact hcal
  have hr : 1 ≤ s.remaining_hashes := by omega
  obtain ⟨b1, b2, b3⟩ := run_budget h1 hv ops s hc hr hq
  unfold Poh.tick at htick
  by_cases hcond : (Poh.run h1 hv s ops).1.hashes_per_tick ≠ LOW_POWER_MODE ∧
      (Poh.run h1 hv s ops).1.remaining_hashes - 1 ≠ 0
  · rw [if_pos hcond] at htick
    rw [Prod.mk.injEq] at htick
    exact Option.noConfusion htick.2
  · rw [if_neg hcond] at htick
    rw [Prod.mk.injEq] at htick
    have hnz : (Poh.run h1 hv s ops).1.hashes_per_tick ≠ LOW_POWER_MODE := by
      rw [b1, hhpt]
      exact hcal
    have hzero : (Poh.run h1 hv s ops).1.remaining_hashes - 1 = 0 := by
      by_contra hz
      exact hcond ⟨hnz, hz⟩
    have he : e.num_hashes = (Poh.run h1 hv s ops).1.num_hashes + 1 := by
      have h2 := htick.2
      rw [Option.some.injEq] at h2
      rw [← h2]
    omega

/-- Witness for C1 with `N = 3`: two quiet ticks, then the emitting tick
produces an entry with `num_hashes = 3`. -/
theorem c1_calibrated_tick_budget_witness :
    entriesSum (Poh.run Nat.succ Nat.add
      { hash := 0, num_hashes := 0, hashes_per_tick := 3,
        remaining_hashes := 3, tick_number := 0 }
      [.tickOp, .tickOp]).2 + (3 : Nat) = 3 :=
  c1_calibrated_tick_budget Nat.succ Nat.add 3
    { hash := 0, num_hashes := 0, hashes_per_tick := 3,
      remaining_hashes := 3, tick_number := 0 }
    { hash := 3, num_hashes := 0, hashes_per_tick := 3,
      remaining_hashes := 3, tick_number := 1 }
    [.tickOp, .tickOp]
    { num_hashes := 3, hash := 3 }
    (by decide) (by decide) rfl rfl rfl (by decide) (by decide)

/-!
Ledger store embedding (src/ledger/src/blockstore_db.rs and
src/ledger/src/blockstore.rs).  The `blockstore::column` module (key
encodings, `NAME` constants), `blockstore::error` and
`blockstore_options` modules are declared by src but their definitions are
not under src/; where a claim needs them they are modelled from the spec,
as marked in the doc comments below.
-/

/-- `rocksdb::CompactionDecision` (only the two variants this code
produces). -/
inductive CompactionDecision where
  | Keep
  | Remove
deriving Repr, DecidableEq

/-- The snapshot state of `PurgedSlotFilter` (src/ledger/src/
blockstore_db.rs): the oldest slot to keep and the `clean_slot_0` flag,
both copied by value out of the shared cursor when the filter was created.
The `name: CString` field (a debug label) and the `PhantomData` marker are
omitted. -/
structure PurgedSlotFilter where
  oldest_slot : Nat
  clean_slot_0 : Bool
deriving Repr, DecidableEq

/-- `PurgedSlotFilter::filter`.  The column's key decoding
`C::slot(C::index(key))` lives in the missing `blockstore::column` module;
it is embedded as the parameter `slotOfKey`, mapping a raw key to its
embedded slot. -/
def PurgedSlotFilter.filter {K : Type} (slotOfKey : K → Nat)
    (f : PurgedSlotFilter) (key : K) : CompactionDecision :=
  let slot_in_key := slotOfKey key
  if f.oldest_slot ≤ slot_in_key ∨
      (slot_in_key = 0 ∧ f.clean_slot_0 = false) then
    CompactionDecision.Keep
  else
    CompactionDecision.Remove

/-- The shared `OldestSlot` cursor (src/ledger/src/blockstore_db.rs): an
atomically updated slot threshold plus the `clean_slot_0` flag.  The
`Arc<AtomicU64>`/`Arc<AtomicBool>` cells are embedded by their values at
one relaxed load. -/
structure OldestSlot where
  slot : Nat
  clean_slot_0 : Bool
deriving Repr, DecidableEq

/-- `OldestSlot::get` (a relaxed load of the slot cursor). -/
def OldestSlot.get (o : OldestSlot) : Nat := o.slot

/-- `OldestSlot::get_clean_slot_0` (a relaxed load of the flag). -/
def OldestSlot.get_clean_slot_0 (o : OldestSlot) : Bool := o.clean_slot_0

/-- `PurgedSlotFilterFactory::create`: snapshots the cursor once into the
new filter (the `name` debug string it also builds is omitted). -/
def PurgedSlotFilterFactory.create (o : OldestSlot) : PurgedSlotFilter :=
  { oldest_slot := o.get, clean_slot_0 := o.get_clean_slot_0 }

/-- C4: a filter created by the factory carries one snapshot of the cursor
(so every key of the compaction pass is judged against the same
`oldest_slot`/`clean_slot_0` pair), its per-key decision is Keep iff
`slot >= oldest_slot` or (`slot == 0` and not `clean_slot_0`), and the four
concrete cases with `oldest_slot = 100` come out as the spec states. -/
theorem c4_purged_slot_filter :
    (∀ (o : OldestSlot),
      (PurgedSlotFilterFactory.create o).oldest_slot = o.get ∧
      (PurgedSlotFilterFactory.create o).clean_slot_0 =
        o.get_clean_slot_0) ∧
    (∀ (K : Type) (slotOfKey : K → Nat) (o : OldestSlot) (key : K),
      (PurgedSlotFilterFactory.create o).filter slotOfKey key =
          CompactionDecision.Keep ↔
        (o.slot ≤ slotOfKey key ∨
          (slotOfKey key = 0 ∧ o.clean_slot_0 = false))) ∧
    ((PurgedSlotFilterFactory.create { slot := 100, clean_slot_0 := false
      }).filter id 99 = CompactionDecision.Remove ∧
     (PurgedSlotFilterFactory.create { slot := 100, clean_slot_0 := true
      }).filter id 99 = CompactionDecision.Remove ∧
     (PurgedSlotFilterFactory.create { slot := 100, clean_slot_0 := false
      }).filter id 100 = CompactionDecision.Keep ∧
     (PurgedSlotFilterFactory.create { slot := 100, clean_slot_0 := true
      }).filter id 100 = CompactionDecision.Keep ∧
     (PurgedSlotFilterFactory.create { slot := 100, clean_slot_0 := false
      }).filter id 0 = CompactionDecision.Keep ∧
     (PurgedSlotFilterFactory.create { slot := 100, clean_slot_0 := true
      }).filter id 0 = CompactionDecision.Remove) := by
  refine ⟨fun o => ⟨rfl, rfl⟩, ?_, by decide⟩
  intro K slotOfKey o key
  unfold PurgedSlotFilter.filter PurgedSlotFilterFactory.create
  dsimp only [OldestSlot.get, OldestSlot.get_clean_slot_0]
  by_cases hk : o.slot ≤ slotOfKey key ∨
      (slotOfKey key = 0 ∧ o.clean_slot_0 = false)
  · rw [if_pos hk]
    simpa using hk
  · rw [if_neg hk]
    simp [hk]

/-- Raw on-disk bytes. -/
abbrev Bytes := List Nat

/-- Modelled from the spec: the typed error of the missing
`blockstore::error` module ("typed errors bubble to the caller":
I/O failure and serialization failure). -/
inductive BlockstoreError where
  | RocksDb (code : Nat)
  | Serialize (code : Nat)
deriving Repr, DecidableEq

/-- The capability interface of the missing `blockstore::column` module
(`Column`/`TypedColumn` traits): key encode, index decode, and value
(de)serialization, each fallible where the Rust trait is. -/
structure TypedColumn (Idx V : Type) where
  key : Idx → Bytes
  index : Bytes → Idx
  serialize : V → Except BlockstoreError Bytes
  deserialize : Bytes → Except BlockstoreError V

/-- `LedgerColumn::get_raw` (src/ledger/src/blockstore_db.rs): the
backend read is the parameter `get_pinned_cf` (the `Rocks::get_pinned_cf`
wrapper around the external engine).  Both `?` operators propagate the
typed error; a missing key stays `Ok(None)`. -/
def LedgerColumn.get_raw {Idx V : Type} (C : TypedColumn Idx V)
    (get_pinned_cf : Bytes → Except BlockstoreError (Option Bytes))
    (key : Bytes) : Except BlockstoreError (Option V) :=
  match get_pinned_cf key with
  | Except.error e => Except.error e
  | Except.ok none => Except.ok none
  | Except.ok (some bytes) =>
    match C.deserialize bytes with
    | Except.error e => Except.error e
    | Except.ok value => Except.ok (some value)

/-- `LedgerColumn::get`: typed-key encode then `get_raw`. -/
def LedgerColumn.get {Idx V : Type} (C : TypedColumn Idx V)
    (get_pinned_cf : Bytes → Except BlockstoreError (Option Bytes))
    (index : Idx) : Except BlockstoreError (Option V) :=
  LedgerColumn.get_raw C get_pinned_cf (C.key index)

/-- `LedgerColumn::put`: serialize (propagating via `?`), then hand the
encoded key and bytes to the backend write, returning its result. -/
def LedgerColumn.put {Idx V : Type} (C : TypedColumn Idx V)
    (put_cf : Bytes → Bytes → Except BlockstoreError Unit)
    (index : Idx) (value : V) : Except BlockstoreError Unit :=
  match C.serialize value with
  | Except.error e => Except.error e
  | Except.ok serialized_value => put_cf (C.key index) serialized_value

/-- `LedgerColumn::delete`: encode the key and return the backend
delete's result. -/
def LedgerColumn.delete {Idx V : Type} (C : TypedColumn Idx V)
    (delete_cf : Bytes → Except BlockstoreError Unit)
    (index : Idx) : Except BlockstoreError Unit :=
  delete_cf (C.key index)

/-- `LedgerColumn::iter`: the backend iterator (`Rocks::iterator_cf`) is a
sequence of fallible key/value pairs, embedded as the `items` list; the
method wraps it in `Ok(...)` unconditionally and maps
`let (key, value) = pair.unwrap(); (C::index(&key), value)` over it.
`unwrap` on an `Err` item is a panic, embedded as `none` in the produced
item list. -/
def LedgerColumn.iter {Idx V : Type} (C : TypedColumn Idx V)
    (items : List (Except BlockstoreError (Bytes × Bytes))) :
    Except BlockstoreError (List (Option (Idx × Bytes))) :=
  Except.ok (items.map (fun pair =>
    match pair with
    | Except.ok kv => some (C.index kv.1, kv.2)
    | Except.error _ => none))

/-- A concrete trivial column instance used by closed statements. -/
def natColumn : TypedColumn Nat Nat :=
  { key := fun i => [i],
    index := fun b => b.headD 0,
    serialize := fun v => Except.ok [v],
    deserialize := fun b => Except.ok (b.headD 0) }

/-- Counterexample to C5 as stated: when the backend iterator yields an
I/O error item, `iter` still returns `Ok` — the error reaches the caller
as an `unwrap` panic (the `none` item), not as a typed error, so `iter`
does not surface backend errors as typed errors. -/
theorem c5_iter_counterexample :
    LedgerColumn.iter natColumn
      [Except.error (BlockstoreError.RocksDb 7)] =
    Except.ok [(none : Option (Nat × Bytes))] := rfl

/-- C5 amended: `get`, `get_raw`, `put` and `delete` surface backend I/O
and serialization errors to the caller as typed errors, and a missing key
is the normal `Ok(None)` result, never an error; `iter` itself always
returns `Ok` and a failing backend iterator item becomes an `unwrap`
panic (`none` item) rather than a typed error. -/
theorem c5_column_error_propagation :
    (∀ (Idx V : Type) (C : TypedColumn Idx V)
        (gp : Bytes → Except BlockstoreError (Option Bytes)) (k : Bytes)
        (e : BlockstoreError),
      gp k = Except.error e →
        LedgerColumn.get_raw C gp k = Except.error e) ∧
    (∀ (Idx V : Type) (C : TypedColumn Idx V)
        (gp : Bytes → Except BlockstoreError (Option Bytes)) (k b : Bytes)
        (e : BlockstoreError),
      gp k = Except.ok (some b) → C.deserialize b = Except.error e →
        LedgerColumn.get_raw C gp k = Except.error e) ∧
    (∀ (Idx V : Type) (C : TypedColumn Idx V)
        (gp : Bytes → Except BlockstoreError (Option Bytes)) (k : Bytes),
      gp k = Except.ok none →
        LedgerColumn.get_raw C gp k = Except.ok none) ∧
    (∀ (Idx V : Type) (C : TypedColumn Idx V)
        (gp : Bytes → Except BlockstoreError (Option Bytes)) (i : Idx),
      LedgerColumn.get C gp i = LedgerColumn.get_raw C gp (C.key i)) ∧
    (∀ (Idx V : Type) (C : TypedColumn Idx V)
        (pc : Bytes → Bytes → Except BlockstoreError Unit) (i : Idx)
        (v : V) (e : BlockstoreError),
      C.serialize v = Except.error e →
        LedgerColumn.put C pc i v = Except.error e) ∧
    (∀ (Idx V : Type) (C : TypedColumn Idx V)
        (pc : Bytes → Bytes → Except BlockstoreError Unit) (i : Idx)
        (v : V) (b : Bytes),
      C.serialize v = Except.ok b →
        LedgerColumn.put C pc i v = pc (C.key i) b) ∧
    (∀ (Idx V : Type) (C : TypedColumn Idx V)
        (dc : Bytes → Except BlockstoreError Unit) (i : Idx),
      LedgerColumn.delete C dc i = dc (C.key i)) ∧
    (∀ (Idx V : Type) (C : TypedColumn Idx V)
        (items : List (Except BlockstoreError (Bytes × Bytes)))
        (e : BlockstoreError),
      Except.error e ∈ items →
        (LedgerColumn.iter C items ≠ Except.error e ∧
         none ∈ (items.map (fun pair =>
           match pair with
           | Except.ok kv => some (C.index kv.1, kv.2)
           | Except.error _ => none)))) := by
  refine ⟨?_, ?_, ?_, ?_, ?_, ?_, ?_, ?_⟩
  · intro Idx V C gp k e hgp
    unfold LedgerColumn.get_raw
    rw [hgp]
  · intro Idx V C gp k b e hgp hde
    unfold LedgerColumn.get_raw
    rw [hgp]
    show (match C.deserialize b with
      | Except.error e => Except.error e
      | Except.ok value => Except.ok (some value)) = Except.error e
    rw [hde]
  · intro Idx V C gp k hgp
    unfold LedgerColumn.get_raw
    rw [hgp]
  · intro Idx V C gp i
    rfl
  · intro Idx V C pc i v e hser
    unfold LedgerColumn.put
    rw [hser]
  · intro Idx V C pc i v b hser
    unfold LedgerColumn.put
    rw [hser]
  · intro Idx V C dc i
    rfl
  · intro Idx V C items e hmem
    refine ⟨by simp [LedgerColumn.iter], ?_⟩
    exact List.mem_map.mpr ⟨Except.error e, hmem, rfl⟩

/-- Witness for the amended C5 at concrete backends: a failing read
propagates typed, a missing key reads as `Ok(None)`, a failing serialize
propagates typed, and an erroring iterator item is a panic, not a typed
error. -/
theorem c5_column_error_propagation_witness :
    LedgerColumn.get_raw natColumn
        (fun _ => Except.error (BlockstoreError.RocksDb 3)) [0] =
      Except.error (BlockstoreError.RocksDb 3) ∧
    LedgerColumn.get_raw natColumn (fun _ => Except.ok none) [0] =
      Except.ok none ∧
    LedgerColumn.put
        { natColumn with
          serialize := fun _ => Except.error (BlockstoreError.Serialize 9) }
        (fun _ _ => Except.ok ()) 1 2 =
      Except.error (BlockstoreError.Serialize 9) ∧
    (LedgerColumn.iter natColumn
        [Except.error (BlockstoreError.RocksDb 7)] ≠
      Except.error (BlockstoreError.RocksDb 7) ∧
     none ∈ ([Except.error (BlockstoreError.RocksDb 7)].map
       (fun (pair : Except BlockstoreError (Bytes × Bytes)) =>
         match pair with
         | Except.ok kv => some (natColumn.index kv.1, kv.2)
         | Except.error _ => (none : Option (Nat × Bytes))))) :=
  ⟨c5_column_error_propagation.1 Nat Nat natColumn
      (fun _ => Except.error (BlockstoreError.RocksDb 3)) [0]
      (BlockstoreError.RocksDb 3) rfl,
   c5_column_error_propagation.2.2.1 Nat Nat natColumn
      (fun _ => Except.ok none) [0] rfl,
   c5_column_error_propagation.2.2.2.2.1 Nat Nat
      { natColumn with
        serialize := fun _ => Except.error (BlockstoreError.Serialize 9) }
      (fun _ _ => Except.ok ()) 1 2 (BlockstoreError.Serialize 9) rfl,
   c5_column_error_propagation.2.2.2.2.2.2.2 Nat Nat natColumn
      [Except.error (BlockstoreError.RocksDb 7)]
      (BlockstoreError.RocksDb 7) (by simp)⟩

/-- `AccessType` from the missing `blockstore_options` module, modelled
from the spec (three access modes). -/
inductive AccessType where
  | Primary
  | PrimaryForMaintenance
  | Secondary
deriving Repr, DecidableEq

/-- `MAX_WRITE_BUFFER_SIZE` (256 MB) from src/ledger/src/blockstore_db.rs. -/
def MAX_WRITE_BUFFER_SIZE : Nat := 256 * 1024 * 1024

/-- The slice of a `ColumnFamilyDescriptor` the claims observe: its name
and, of its rocksdb `Options`, the write buffer size and the
auto-compaction switch (the remaining engine tuning knobs are opaque to
the claims). -/
structure CfDescriptor where
  name : String
  write_buffer_size : Nat
  disable_auto_compactions : Bool
deriving Repr, DecidableEq

/-- Modelled from the spec: the `NAME` constants of the 19 known columns
live in the missing `blockstore::column` module ("fixed, stable
identifiers — a schema contract"); they are embedded as opaque distinct
strings named after their column types, in the order
`Rocks::cf_descriptors` lists them. -/
def knownColumnNames : List String :=
  ["SlotMeta", "DeadSlots", "ErasureMeta", "Orphans", "BankHash", "Root",
   "Index", "ShredData", "ShredCode", "TransactionStatus",
   "AddressSignatures", "TransactionMemos", "TransactionStatusIndex",
   "Rewards", "Blocktime", "PerfSamples", "BlockHeight",
   "OptimisticSlots", "MerkleRootMeta"]

/-- Modelled from the spec: `DEPRECATED_PROGRAM_COSTS_COLUMN_NAME` from
the missing `blockstore::column` module (the "deprecated, no-longer-used
column" dropped at open). -/
def DEPRECATED_PROGRAM_COSTS_COLUMN_NAME : String := "ProgramCosts"

/-- `DEFAULT_COLUMN_NAME` ("default") from `Rocks::cf_descriptors`. -/
def DEFAULT_COLUMN_NAME : String := "default"

/-- `should_disable_auto_compactions`: enabled only in Primary mode. -/
def should_disable_auto_compactions (access_type : AccessType) : Bool :=
  match access_type with
  | AccessType.Primary => false
  | _ => true

/-- `new_cf_descriptor`/`get_cf_options` restricted to the observed
fields: known columns get the full 256 MB write buffer and the
access-type-dependent compaction switch. -/
def new_cf_descriptor (access_type : AccessType) (name : String) :
    CfDescriptor :=
  { name := name,
    write_buffer_size := MAX_WRITE_BUFFER_SIZE,
    disable_auto_compactions := should_disable_auto_compactions access_type }

/-- `Rocks::cf_descriptors`: descriptors for all known columns; in the
read-write modes, additionally one minimal-options descriptor (1 MB write
buffer, auto-compaction disabled) per on-disk column name not in the known
set (the "default" column is handled by the engine itself).  `detected_cfs`
embeds the result of `DB::list_cf`. -/
def cf_descriptors (access_type : AccessType)
    (detected_cfs : List String) : List CfDescriptor :=
  let base := knownColumnNames.map (new_cf_descriptor access_type)
  match access_type with
  | AccessType.Secondary => base
  | _ =>
    let known_cfs := knownColumnNames ++ [DEFAULT_COLUMN_NAME]
    base ++
      (detected_cfs.filter (fun cf_name => ¬ cf_name ∈ known_cfs)).map
        (fun cf_name =>
          { name := cf_name,
            write_buffer_size := 1024 * 1024,
            disable_auto_compactions := true })

/-- The column-family handling of `Rocks::open`: rocksdb's
`DB::open_cf_descriptors` (external engine) fails in a read-write mode iff
some on-disk column family has no descriptor; on success the open database
holds the default column plus one column per descriptor (missing ones are
created via `create_missing_column_families`), and `open` then drops the
deprecated program-costs column if a handle for it exists.  Returns the
final set of column names, or `none` for an open failure. -/
def Rocks.openCfNames (access_type : AccessType)
    (detected_cfs : List String) : Option (List String) :=
  let descriptors := cf_descriptors access_type detected_cfs
  let descriptor_names := descriptors.map CfDescriptor.name
  if access_type ≠ AccessType.Secondary ∧
      ¬ detected_cfs.all
        (fun cf => cf = DEFAULT_COLUMN_NAME ∨ cf ∈ descriptor_names) then
    none
  else
    let cfs := DEFAULT_COLUMN_NAME :: descriptor_names
    if DEPRECATED_PROGRAM_COSTS_COLUMN_NAME ∈ cfs then
      some (cfs.filter (fun cf => cf ≠ DEPRECATED_PROGRAM_COSTS_COLUMN_NAME))
    else
      some cfs

/-- C6: in a read-write mode, every on-disk column name outside the known
static set receives a minimal-resource descriptor (1 MB write buffer,
auto-compaction disabled), `open` succeeds whatever columns are on disk,
and the deprecated program-costs column is absent from the opened set. -/
theorem c6_unknown_columns_tolerated (access_type : AccessType)
    (detected_cfs : List String)
    (hrw : access_type ≠ AccessType.Secondary) :
    (∀ cf_name, cf_name ∈ detected_cfs →
      cf_name ∉ knownColumnNames ++ [DEFAULT_COLUMN_NAME] →
      { name := cf_name, write_buffer_size := 1024 * 1024,
        disable_auto_compactions := true : CfDescriptor } ∈
        cf_descriptors access_type detected_cfs) ∧
    (∃ cfs, Rocks.openCfNames access_type detected_cfs = some cfs ∧
      DEPRECATED_PROGRAM_COSTS_COLUMN_NAME ∉ cfs) := by
  have hdesc : cf_descriptors access_type detected_cfs =
      knownColumnNames.map (new_cf_descriptor access_type) ++
        (detected_cfs.filter
          (fun cf_name =>
            ¬ cf_name ∈ knownColumnNames ++ [DEFAULT_COLUMN_NAME])).map
          (fun cf_name =>
            { name := cf_name,
              write_buffer_size := 1024 * 1024,
              disable_auto_compactions := true }) := by
    cases access_type with
    | Secondary => exact absurd rfl hrw
    | Primary => rfl
    | PrimaryForMaintenance => rfl
  constructor
  · intro cf_name hdet hunk
    rw [hdesc]
    refine List.mem_append_right _ ?_
    exact List.mem_map.mpr
      ⟨cf_name, List.mem_filter.mpr ⟨hdet, by simpa using hunk⟩, rfl⟩
  · have hall : detected_cfs.all
        (fun cf => cf = DEFAULT_COLUMN_NAME ∨
          cf ∈ (cf_descriptors access_type detected_cfs).map
            CfDescriptor.name) = true := by
      rw [List.all_eq_true]
      intro cf hcf
      by_cases hk : cf ∈ knownColumnNames ++ [DEFAULT_COLUMN_NAME]
      · rcases List.mem_append.mp hk with hk1 | hk2
        · refine decide_eq_true ?_
          right
          rw [hdesc, List.map_append]
          refine List.mem_append_left _ ?_
          rw [List.map_map]
          exact List.mem_map.mpr ⟨cf, hk1, rfl⟩
        · refine decide_eq_true ?_
          left
          simpa using hk2
      · refine decide_eq_true ?_
        right
        rw [hdesc, List.map_append]
        refine List.mem_append_right _ ?_
        rw [List.map_map]
        exact List.mem_map.mpr
          ⟨cf, List.mem_filter.mpr ⟨hcf, by simpa using hk⟩, rfl⟩
    unfold Rocks.openCfNames
    rw [if_neg (by
      intro hcontra
      rw [hall] at hcontra
      exact hcontra.2 rfl)]
    by_cases hdep : DEPRECATED_PROGRAM_COSTS_COLUMN_NAME ∈
        DEFAULT_COLUMN_NAME ::
          (cf_descriptors access_type detected_cfs).map CfDescriptor.name
    · rw [if_pos hdep]
      refine ⟨_, rfl, ?_⟩
      intro hmem
      have h2 := (List.mem_filter.mp hmem).2
      simp at h2
    · rw [if_neg hdep]
      exact ⟨_, rfl, hdep⟩

/-- Witness for C6: a disk set containing one unknown column and the
deprecated program-costs column still opens, with the unknown column given
minimal options and program-costs dropped. -/
theorem c6_unknown_columns_tolerated_witness :
    ({ name := "FutureColumn", write_buffer_size := 1024 * 1024,
       disable_auto_compactions := true : CfDescriptor } ∈
      cf_descriptors AccessType.Primary
        ["SlotMeta", "FutureColumn", "ProgramCosts", "default"]) ∧
    (∃ cfs, Rocks.openCfNames AccessType.Primary
        ["SlotMeta", "FutureColumn", "ProgramCosts", "default"] =
          some cfs ∧
      DEPRECATED_PROGRAM_COSTS_COLUMN_NAME ∉ cfs) :=
  ⟨(c6_unknown_columns_tolerated AccessType.Primary
      ["SlotMeta", "FutureColumn", "ProgramCosts", "default"]
      (by decide)).1 "FutureColumn" (by decide) (by decide),
   (c6_unknown_columns_tolerated AccessType.Primary
      ["SlotMeta", "FutureColumn", "ProgramCosts", "default"]
      (by decide)).2⟩

/-- Reverse (End-mode) iteration over the Root column's key sequence
(src/ledger/src/blockstore.rs, `roots_cf.iter(IteratorMode::End)`): the
column stores one row per root slot, keyed by the slot with an
order-preserving byte encoding, so the engine yields keys in ascending
slot order and End-mode iteration yields their reverse.  `roots` is the
ascending key sequence. -/
def rootIterEnd (roots : List Nat) : List Nat := roots.reverse

/-- The `max_root` computation of `Blockstore::do_open`:
`roots_cf.iter(End)?.next().map(|(slot, _)| slot).unwrap_or(0)` — the
`.map` projects the (key, value) pair to its slot, which `rootIterEnd`
already performed by yielding the key sequence. -/
def do_open_max_root (roots : List Nat) : Nat :=
  (rootIterEnd roots).head?.getD 0

/-- The first element of the End-mode iteration is the column's last key. -/
theorem rootIterEnd_head (l : List Nat) :
    (rootIterEnd l).head?.getD 0 = l.getLast?.getD 0 := by
  induction l with
  | nil => rfl
  | cons a t ih =>
    cases t with
    | nil => rfl
    | cons b t' =>
      rw [List.getLast?_cons_cons, ← ih]
      simp only [rootIterEnd, List.reverse_cons]
      rw [List.head?_append_of_ne_nil]
      simp

/-- On a slot-sorted column, the last key is the maximum slot. -/
theorem sorted_getLast_eq_max (l : List Nat) :
    List.Sorted (· ≤ ·) l → l.getLast?.getD 0 = l.foldr max 0 := by
  induction l with
  | nil =>
    intro _
    rfl
  | cons a t ih =>
    intro h
    rw [List.sorted_cons] at h
    obtain ⟨hle, hst⟩ := h
    cases t with
    | nil => simp
    | cons b t' =>
      rw [List.getLast?_cons_cons, ih hst]
      have hab : a ≤ b := hle b (List.mem_cons_self b t')
      have hbf : b ≤ List.foldr max 0 (b :: t') := le_max_left _ _
      show List.foldr max 0 (b :: t') = max a (List.foldr max 0 (b :: t'))
      omega

/-- C7: the initial `max_root` computed at open is the slot of the first
entry of the reverse-order iteration of the root column, which on the
slot-ordered column is its maximum slot, and it is 0 when the column is
empty — in particular a brand-new empty ledger opens with `max_root = 0`. -/
theorem c7_initial_max_root (roots : List Nat)
    (hsorted : List.Sorted (· ≤ ·) roots) :
    do_open_max_root roots = roots.foldr max 0 ∧
    (roots = [] → do_open_max_root roots = 0) := by
  constructor
  · show (rootIterEnd roots).head?.getD 0 = roots.foldr max 0
    rw [rootIterEnd_head, sorted_getLast_eq_max roots hsorted]
  · intro hempty
    subst hempty
    rfl

/-- Witness for C7: the fresh empty ledger (empty root column) yields
`max_root = 0`, and a populated sorted column yields its maximum. -/
theorem c7_initial_max_root_witness :
    (do_open_max_root [] = List.foldr max 0 [] ∧
      ([] = ([] : List Nat) → do_open_max_root [] = 0)) ∧
    (do_open_max_root [2, 5, 9] = List.foldr max 0 [2, 5, 9] ∧
      ([2, 5, 9] = ([] : List Nat) → do_open_max_root [2, 5, 9] = 0)) :=
  ⟨c7_initial_max_root [] (by simp),
   c7_initial_max_root [2, 5, 9] (by simp)⟩

/-- `TransactionStatusIndexMeta { max_slot, frozen }` from
src/ledger/src/blockstore_meta.rs. -/
structure TransactionStatusIndexMeta where
  max_slot : Nat
  frozen : Bool
deriving Repr, DecidableEq

/-- The loop body of `Blockstore::update_highest_primary_index_slot`
(src/ledger/src/blockstore.rs): take the row's `max_slot` whenever no
candidate is held yet or the row's value is larger. -/
def highestFold (highest : Option Nat)
    (meta : TransactionStatusIndexMeta) : Option Nat :=
  if highest.isNone ||
      highest.any (fun slot => decide (slot < meta.max_slot)) then
    some meta.max_slot
  else
    highest

/-- `Blockstore::update_highest_primary_index_slot`: iterate all
`TransactionStatusIndexMeta` rows, fold the running maximum, then either
store it in the (initially unset) cache or, when absent or zero, leave the
cache unset and set `clean_slot_0` on the shared cursor.  Returns the
resulting (cache, clean_slot_0) pair, from their open-time initial values
(`None`, `false`). -/
def update_highest_primary_index_slot
    (metas : List TransactionStatusIndexMeta) : Option Nat × Bool :=
  let highest := metas.foldl highestFold none
  if highest.any (fun slot => decide (slot ≠ 0)) then
    (highest, false)
  else
    (none, true)

/-- The maximum of the rows' `max_slot` values, as the claim phrases it. -/
def specMaxSlot (metas : List TransactionStatusIndexMeta) : Nat :=
  (metas.map TransactionStatusIndexMeta.max_slot).foldl max 0

/-- Folding the loop body from a held candidate computes the running
maximum. -/
theorem foldl_highestFold_some (t : List TransactionStatusIndexMeta) :
    ∀ s : Nat, t.foldl highestFold (some s) =
      some ((t.map TransactionStatusIndexMeta.max_slot).foldl max s) := by
  induction t with
  | nil =>
    intro s
    rfl
  | cons m t ih =>
    intro s
    rw [List.foldl_cons, List.map_cons, List.foldl_cons]
    have h1 : highestFold (some s) m = some (max s m.max_slot) := by
      unfold highestFold
      by_cases hlt : s < m.max_slot
      · rw [if_pos (by simp [Option.any, hlt])]
        rw [Nat.max_eq_right (Nat.le_of_lt hlt)]
      · rw [if_neg (by simp [Option.any, hlt])]
        rw [Nat.max_eq_left (Nat.le_of_not_lt hlt)]
    rw [h1, ih]

/-- C8: the open-time scan equals the claim's description: the cache gets
the maximum `max_slot` over all rows when that maximum is nonzero over a
nonempty scan; otherwise the cache stays unset and the store flags itself
for full slot-0 cleanup (`clean_slot_0 = true`). -/
theorem c8_update_highest_primary_index_slot
    (metas : List TransactionStatusIndexMeta) :
    update_highest_primary_index_slot metas =
      if specMaxSlot metas ≠ 0 ∧ metas ≠ [] then
        (some (specMaxSlot metas), false)
      else
        (none, true) := by
  cases metas with
  | nil =>
    simp [update_highest_primary_index_slot, specMaxSlot]
  | cons m t =>
    have hfold : (m :: t).foldl highestFold none =
        some ((t.map TransactionStatusIndexMeta.max_slot).foldl max
          m.max_slot) := by
      rw [List.foldl_cons]
      have h0 : highestFold none m = some m.max_slot := rfl
      rw [h0, foldl_highestFold_some]
    have hspec : specMaxSlot (m :: t) =
        (t.map TransactionStatusIndexMeta.max_slot).foldl max
          m.max_slot := by
      unfold specMaxSlot
      rw [List.map_cons, List.foldl_cons, Nat.zero_max]
    unfold update_highest_primary_index_slot
    rw [hfold, hspec]
    by_cases hM : (t.map TransactionStatusIndexMeta.max_slot).foldl max
        m.max_slot = 0
    · rw [if_neg (by simp [Option.any, hM]), if_neg (by simp [hM])]
    · rw [if_pos (by simp [Option.any, hM]),
        if_pos ⟨hM, by simp⟩]

/-- A closed evaluation of C8's scan on the two rotating rows: with
max-slots 0 and 7 the cache gets 7; with both zero the cache stays unset
and `clean_slot_0` is raised. -/
theorem c8_update_highest_primary_index_slot_eval :
    update_highest_primary_index_slot
      [{ max_slot := 0, frozen := false },
       { max_slot := 7, frozen := true }] = (some 7, false) ∧
    update_highest_primary_index_slot
      [{ max_slot := 0, frozen := false },
       { max_slot := 0, frozen := true }] = (none, true) ∧
    update_highest_primary_index_slot [] = (none, true) := by
  refine ⟨?_, ?_, ?_⟩ <;> rfl

/-- The slice of `solana_genesis_config::GenesisConfig` (external
collaborator) that `create_new_ledger` reads: `ticks_per_slot`, the PoH
calibration `hashes_per_tick`, and the configuration's content hash
(`genesis_config.hash()`), plus one field standing for all remaining
configuration data (accounts, parameters, ...) that slot-0 synthesis never
reads. -/
structure GenesisConfig where
  ticks_per_slot : Nat
  hashes_per_tick : Option Nat
  content_hash : Hash
  other_data : Nat
deriving Repr, DecidableEq

/-- Modelled from the spec: `create_ticks` (crate `blockchain_entry`,
module `entry`; its definition is not under src/) "synthesizes slot 0 as a
sequence of pure tick entries chained from the genesis hash": `num_ticks`
tick entries, each advancing the hash chain by the per-tick hash count
derived from `hashes_per_tick` (at least one hash per tick) and recording
that count.  The claims about it depend only on it being a pure
deterministic function of these three arguments. -/
def create_ticks (h1 : Hash → Hash) (num_ticks : Nat)
    (hashes_per_tick : Nat) (start_hash : Hash) : List PohEntry :=
  match num_ticks with
  | 0 => []
  | n + 1 =>
    let iterations := max hashes_per_tick 1
    let next_hash := hashTimes h1 iterations start_hash
    { num_hashes := iterations, hash := next_hash } ::
      create_ticks h1 n hashes_per_tick next_hash

/-- The on-disk outcome of `create_new_ledger` that the claim observes:
the persisted genesis configuration and the synthesized slot-0 tick
entries. -/
structure LedgerDiskState where
  genesis : GenesisConfig
  slot0_ticks : List PohEntry
deriving Repr, DecidableEq

/-- `create_new_ledger` (src/ledger/src/blockstore.rs): destroys whatever
ledger exists at the path (`prior`), persists the genesis configuration,
opens a fresh store and synthesizes slot 0 as
`create_ticks(ticks_per_slot, hashes_per_tick.unwrap_or(0), genesis.hash())`,
returning `entries.last().unwrap().hash` (the `unwrap` panic on an empty
entry list is embedded as `none`). -/
def create_new_ledger (h1 : Hash → Hash)
    (prior : Option LedgerDiskState) (genesis_config : GenesisConfig) :
    LedgerDiskState × Option Hash :=
  let _ := prior
  let ticks_per_slot := genesis_config.ticks_per_slot
  let hashes_per_tick := genesis_config.hashes_per_tick.getD 0
  let entries :=
    create_ticks h1 ticks_per_slot hashes_per_tick
      genesis_config.content_hash
  let last_hash := (entries.getLast?).map PohEntry.hash
  ({ genesis := genesis_config, slot0_ticks := entries }, last_hash)

/-- C9: `create_new_ledger` is idempotent and deterministic: whatever
ledger was on disk before (in particular the one the first invocation just
wrote), a second invocation with a genesis configuration agreeing on
`ticks_per_slot`, `hashes_per_tick` and content hash produces identical
slot-0 tick content and an identical returned chain-tip hash. -/
theorem c9_create_new_ledger_idempotent (h1 : Hash → Hash)
    (prior1 prior2 : Option LedgerDiskState) (g g' : GenesisConfig)
    (hts : g.ticks_per_slot = g'.ticks_per_slot)
    (hhpt : g.hashes_per_tick = g'.hashes_per_tick)
    (hch : g.content_hash = g'.content_hash) :
    (create_new_ledger h1 prior1 g).1.slot0_ticks =
      (create_new_ledger h1 prior2 g').1.slot0_ticks ∧
    (create_new_ledger h1 prior1 g).2 =
      (create_new_ledger h1 prior2 g').2 := by
  have hticks :
      create_ticks h1 g.ticks_per_slot (g.hashes_per_tick.getD 0)
        g.content_hash =
      create_ticks h1 g'.ticks_per_slot (g'.hashes_per_tick.getD 0)
        g'.content_hash := by
    rw [hts, hhpt, hch]
  constructor
  · show create_ticks h1 g.ticks_per_slot (g.hashes_per_tick.getD 0)
        g.content_hash =
      create_ticks h1 g'.ticks_per_slot (g'.hashes_per_tick.getD 0)
        g'.content_hash
    exact hticks
  · show (create_ticks h1 g.ticks_per_slot (g.hashes_per_tick.getD 0)
          g.content_hash).getLast?.map PohEntry.hash =
      (create_ticks h1 g'.ticks_per_slot (g'.hashes_per_tick.getD 0)
          g'.content_hash).getLast?.map PohEntry.hash
    rw [hticks]

/-- Witness for C9: two invocations over different prior disk states and
genesis configurations that differ only in unrelated data agree on the
slot-0 ticks and the returned chain-tip hash. -/
theorem c9_create_new_ledger_idempotent_witness :
    (create_new_ledger Nat.succ none
        { ticks_per_slot := 2, hashes_per_tick := some 3,
          content_hash := 5, other_data := 0 }).1.slot0_ticks =
      (create_new_ledger Nat.succ
        (some { genesis :=
                  { ticks_per_slot := 2, hashes_per_tick := some 3,
                    content_hash := 5, other_data := 0 },
                slot0_ticks := [] })
        { ticks_per_slot := 2, hashes_per_tick := some 3,
          content_hash := 5, other_data := 99 }).1.slot0_ticks ∧
    (create_new_ledger Nat.succ none
        { ticks_per_slot := 2, hashes_per_tick := some 3,
          content_hash := 5, other_data := 0 }).2 =
      (create_new_ledger Nat.succ
        (some { genesis :=
                  { ticks_per_slot := 2, hashes_per_tick := some 3,
                    content_hash := 5, other_data := 0 },
                slot0_ticks := [] })
        { ticks_per_slot := 2, hashes_per_tick := some 3,
          content_hash := 5, other_data := 99 }).2 :=
  c9_create_new_ledger_idempotent Nat.succ none
    (some { genesis :=
              { ticks_per_slot := 2, hashes_per_tick := some 3,
                content_hash := 5, other_data := 0 },
            slot0_ticks := [] })
    { ticks_per_slot := 2, hashes_per_tick := some 3,
      content_hash := 5, other_data := 0 }
    { ticks_per_slot := 2, hashes_per_tick := some 3,
      content_hash := 5, other_data := 99 }
    rfl rfl rfl
